import Mathlib

/-!
Verification of the data-loading and scoring module of a relation-extraction
pipeline (Neural/utils.py).  The Python source is shallowly embedded: Python
ints become Int (relation / token ids) or Nat (indices, lengths), Python
floats become ℚ or ℝ, dicts become association lists or Option-valued
functions, and the in-place mutation of instance token lists is made explicit
by returning the post-construction instance.
-/

namespace RelExt

/-- Padding id (source constant PAD_ID = 0). -/
def PAD_ID : Int := 0

/-- Unknown-symbol id (source constant UNK_ID = 1). -/
def UNK_ID : Int := 1

/-- Distinguished negative-class id (source constant NO_RELATION = 0). -/
def NO_RELATION : Int := 0

/-- Maximum token-sequence length bound (source constant MAXLEN = 300). -/
def MAXLEN : Nat := 300

/-- Source map_to_ids: ids = [vocab[t] if t in vocab else UNK_ID for t in tokens].
A Python dict is embedded as an Option-valued function. -/
def map_to_ids (tokens : List String) (vocab : String → Option Int) : List Int :=
  tokens.map (fun t => match vocab t with
    | some i => i
    | none => UNK_ID)

/-- Source get_positions: list(range(-start_idx, 0)) + [0]*(end_idx - start_idx + 1)
+ list(range(1, length - end_idx)).  Python's negative repetition count and empty
ranges are reproduced by Int.toNat / truncated Nat subtraction. -/
def get_positions (start_idx end_idx length : Nat) : List Int :=
  ((List.range start_idx).map (fun (i : Nat) => (i : Int) - (start_idx : Int)))
    ++ List.replicate ((end_idx : Int) - (start_idx : Int) + 1).toNat 0
    ++ ((List.range (length - end_idx - 1)).map (fun (i : Nat) => (i : Int) + 1))

/-- One iteration of the scoring loop in source eval: the accumulator is
(correct_by_relation, guessed_by_relation, gold_by_relation) and the pair is
(guess, gold) = (pred[idx], labels[idx]); every increment uses weights[gold]. -/
def evalStep (weights : Int → ℚ) (acc : ℚ × ℚ × ℚ) (pg : Int × Int) : ℚ × ℚ × ℚ :=
  let correct := acc.1
  let guessed := acc.2.1
  let gold := acc.2.2
  let guess := pg.1
  let goldLabel := pg.2
  if goldLabel = NO_RELATION ∧ guess = NO_RELATION then
    (correct, guessed, gold)
  else if goldLabel = NO_RELATION ∧ guess ≠ NO_RELATION then
    (correct, guessed + weights goldLabel, gold)
  else if goldLabel ≠ NO_RELATION ∧ guess = NO_RELATION then
    (correct, guessed, gold + weights goldLabel)
  else
    ((if goldLabel = guess then correct + weights goldLabel else correct),
      guessed + weights goldLabel, gold + weights goldLabel)

/-- Source eval(pred, labels, weights): accumulate the three weighted totals over
all index-aligned (guess, gold) pairs, then prec = correct/guessed when guessed > 0
else 0, recall = correct/gold when gold > 0 else 0, f1 = 2 p r/(p+r) when p+r > 0
else 0. -/
def eval (pred labels : List Int) (weights : Int → ℚ) : ℚ × ℚ × ℚ :=
  let acc := (pred.zip labels).foldl (evalStep weights) (0, 0, 0)
  let correct := acc.1
  let guessed := acc.2.1
  let gold := acc.2.2
  let prec := if guessed > 0 then correct / guessed else 0
  let rcl := if gold > 0 then correct / gold else 0
  let f1 := if prec + rcl > 0 then 2 * prec * rcl / (prec + rcl) else 0
  (prec, rcl, f1)

/-- A raw JSON instance record, as consumed by Dataset.__init__. -/
structure Instance where
  token : List String
  stanford_pos : List String
  stanford_ner : List String
  subj_start : Nat
  subj_end : Nat
  obj_start : Nat
  obj_end : Nat
  subj_type : String
  obj_type : String
  relation : String
deriving DecidableEq

/-- The rel_set accumulation of Dataset.get_id_maps: start from a singleton list
holding the no-relation label and append each instance relation not yet present. -/
def build_rel_set (instances : List Instance) : List String :=
  instances.foldl
    (fun acc inst => if inst.relation ∈ acc then acc else acc ++ [inst.relation])
    ["no_relation"]

/-- The rel2id dict built by Dataset.get_id_maps: enumerate rel_set and map each
relation string to its index. -/
def get_id_maps_rel2id (instances : List Instance) : List (String × Int) :=
  (build_rel_set instances).enum.map (fun p => (p.2, (p.1 : Int)))

/-- First-occurrence deduplication, written from the spec wording: keep each
distinct string at its first occurrence, dropping later repeats. -/
def firstSeen : List String → List String
  | [] => []
  | r :: rest => r :: firstSeen (rest.filter (fun s => s ≠ r))
termination_by l => l.length
decreasing_by
  exact Nat.lt_succ_of_le (List.length_filter_le _ _)

/-- Spec-side closed form of the weighted guessed total: each comparison with a
non-no-relation prediction contributes the gold label's weight. -/
def specGuessedTotal (weights : Int → ℚ) (pairs : List (Int × Int)) : ℚ :=
  (pairs.map (fun pg => if pg.1 ≠ NO_RELATION then weights pg.2 else 0)).sum

/-- Spec-side closed form of the weighted gold total: each comparison with a
non-no-relation gold label contributes that gold label's weight. -/
def specGoldTotal (weights : Int → ℚ) (pairs : List (Int × Int)) : ℚ :=
  (pairs.map (fun pg => if pg.2 ≠ NO_RELATION then weights pg.2 else 0)).sum

/-- Spec-side closed form of the weighted correct total: a comparison contributes
the gold label's weight when the prediction is a real relation equal to gold. -/
def specCorrectTotal (weights : Int → ℚ) (pairs : List (Int × Int)) : ℚ :=
  (pairs.map (fun pg => if pg.1 ≠ NO_RELATION ∧ pg.1 = pg.2 then weights pg.2 else 0)).sum

structure Row where
  tokens : List Int
  pos : List Int
  ner : List Int
  subj_positions : List Int
  obj_positions : List Int
  relation : Int
deriving DecidableEq

/-- Length key used by the Dataset batching loop: lens = [len(x) for x in batch[0]]. -/
def rowLen (r : Row) : Nat := r.tokens.length

/-- Descending-lexicographic comparator on (len, idx) pairs produced by
sorted(..., reverse=True): a comes no later than b iff a.len > b.len or
(equal lens and a.idx ≥ b.idx).  The remaining tuple fields are never compared
because the indices are distinct. -/
def sortKeyLe (a b : Nat × Nat × Row) : Bool :=
  decide (b.1 < a.1) || (decide (a.1 = b.1) && decide (b.2.1 ≤ a.2.1))

/-- The tuples zip(*([lens] + [range(len(lens))] + batch)) of sort_all, as
(len, original index, row). -/
def mkTriples (lens : List Nat) (rows : List Row) : List (Nat × Nat × Row) :=
  (lens.zip rows).enum.map (fun p => (p.2.1, p.1, p.2.2))

/-- Source sort_all: sort the tuples in descending order and return the reordered
fields together with the original indices (sorted_all[2:], sorted_all[1]). -/
def sort_all (lens : List Nat) (rows : List Row) : List Row × List Nat :=
  let sorted := (mkTriples lens rows).mergeSort sortKeyLe
  (sorted.map (fun t => t.2.2), sorted.map (fun t => t.2.1))

/-- Ascending comparator on original-index/row pairs (scatter step). -/
def pairIdxLe (a b : Nat × Row) : Bool := decide (a.1 ≤ b.1)

/-- Scatter sorted rows back through the recorded restore permutation: the row at
sorted position i is placed at original intra-chunk position orig_idx[i]. -/
def scatter (orig_idx : List Nat) (rows : List Row) : List Row :=
  ((orig_idx.zip rows).mergeSort pairIdxLe).map (fun p => p.2)

/-- Chunking of Dataset.__init__: [data[i:i+batch_size] for i in range(0, datasize, batch_size)]. -/
def chunkList {α : Type} (batch_size : Nat) (l : List α) : List (List α) :=
  if h : batch_size = 0 ∨ l.isEmpty then []
  else l.take batch_size :: chunkList batch_size (l.drop batch_size)
termination_by l.length
decreasing_by
  push_neg at h
  have h2 : l ≠ [] := by
    intro he
    rw [he] at h
    simp at h
  have h1 : 0 < l.length := List.length_pos.2 h2
  simp only [List.length_drop]
  omega

/-- Source get_padded_tensor(tokens_list, batch_size): pad_len = min(max length,
MAXLEN); a zero tensor of shape batch_size × pad_len is filled row by row with
each sequence's prefix of length min(pad_len, len).  Rows past the enumerated
sequences (possible only when batch_size exceeds the list length; every call
site passes batch_size = len(tokens_list)) stay all padding. -/
def get_padded_tensor (tokens_list : List (List Int)) (batch_size : Nat) : List (List Int) :=
  let token_len := (tokens_list.map List.length).foldl max 0
  let pad_len := min token_len MAXLEN
  (tokens_list.map (fun s =>
    let cur_len := min pad_len s.length
    s.take cur_len ++ List.replicate (pad_len - cur_len) PAD_ID))
    ++ List.replicate (batch_size - tokens_list.length) (List.replicate pad_len PAD_ID)

/-- The hard-coded NER tag vocabulary ner2id. -/
def ner2id : List (String × Int) :=
  [("<PAD>", 0), ("<UNK>", 1), ("NATIONALITY", 2), ("SET", 3), ("ORDINAL", 4),
    ("ORGANIZATION", 5), ("MONEY", 6), ("PERCENT", 7), ("URL", 8), ("DURATION", 9),
    ("PERSON", 10), ("CITY", 11), ("CRIMINAL_CHARGE", 12), ("DATE", 13), ("TIME", 14),
    ("NUMBER", 15), ("STATE_OR_PROVINCE", 16), ("RELIGION", 17), ("MISC", 18),
    ("CAUSE_OF_DEATH", 19), ("LOCATION", 20), ("TITLE", 21), ("O", 22), ("COUNTRY", 23),
    ("IDEOLOGY", 24)]

/-- The hard-coded POS tag vocabulary pos2id. -/
def pos2id : List (String × Int) :=
  [("<PAD>", 0), ("<UNK>", 1), ("NNP", 2), ("NN", 3), ("IN", 4), ("DT", 5), (",", 6),
    ("JJ", 7), ("NNS", 8), ("VBD", 9), ("CD", 10), ("CC", 11), (".", 12), ("RB", 13),
    ("VBN", 14), ("PRP", 15), ("TO", 16), ("VB", 17), ("VBG", 18), ("VBZ", 19),
    ("PRP$", 20), (":", 21), ("POS", 22), ("\x27\x27", 23), ("``", 24), ("-RRB-", 25),
    ("-LRB-", 26), ("VBP", 27), ("MD", 28), ("NNPS", 29), ("WP", 30), ("WDT", 31),
    ("WRB", 32), ("RP", 33), ("JJR", 34), ("JJS", 35), ("$", 36), ("FW", 37),
    ("RBR", 38), ("SYM", 39), ("EX", 40), ("RBS", 41), ("WP$", 42), ("PDT", 43),
    ("LS", 44), ("UH", 45), ("#", 46)]

/-- Configuration switches of Dataset.__init__ (args.lower, use_mask,
mask_with_type) together with the word vocabulary. -/
structure Config where
  lower : Bool
  use_mask : Bool
  mask_with_type : Bool
  word2id : String → Option Int

/-- Python slice assignment toks[a : b+1] = [v] * (b - a + 1).  take/drop clamp
out-of-range bounds exactly as Python slicing does, and Int-negative repetition
counts collapse to zero just as in Python. -/
def spliceMask (toks : List String) (a b : Nat) (v : String) : List String :=
  toks.take a ++ List.replicate (b + 1 - a) v ++ toks.drop (b + 1)

/-- Subject placeholder: 'SUBJ-' + subj_type when masking with types, 'SUBJ-O'
otherwise. -/
def subjPlaceholder (mask_with_type : Bool) (inst : Instance) : String :=
  if mask_with_type then "SUBJ-" ++ inst.subj_type else "SUBJ-O"

/-- Object placeholder: 'OBJ-' + obj_type when masking with types, 'OBJ-O'
otherwise. -/
def objPlaceholder (mask_with_type : Bool) (inst : Instance) : String :=
  if mask_with_type then "OBJ-" ++ inst.obj_type else "OBJ-O"

/-- One iteration of the preprocessing loop of Dataset.__init__.  The first
component is the instance as the caller's list sees it after the iteration:
when lowercasing is off, tokens aliases instance['token'] and the in-place
slice assignments of the masking step mutate the caller's instance, which is
modelled by rebinding the token field; when lowercasing is on, a fresh list is
masked and the instance is untouched.  The second component is the encoded row,
or none when the instance is discarded (length over MAXLEN, NER length
mismatch, or relation absent from the active vocabulary). -/
def processInstance (cfg : Config) (rel2id : List (String × Int)) (inst : Instance) :
    Instance × Option Row :=
  let l := inst.token.length
  if l > MAXLEN ∨ l ≠ inst.stanford_ner.length then (inst, none)
  else
    let toks0 := if cfg.lower then inst.token.map (fun t => t.toLower) else inst.token
    let masked :=
      if cfg.use_mask then
        spliceMask
          (spliceMask toks0 inst.subj_start inst.subj_end
            (subjPlaceholder cfg.mask_with_type inst))
          inst.obj_start inst.obj_end (objPlaceholder cfg.mask_with_type inst)
      else toks0
    let instAfter :=
      if cfg.use_mask ∧ ¬cfg.lower then { inst with token := masked } else inst
    match rel2id.lookup inst.relation with
    | none => (instAfter, none)
    | some relation =>
        (instAfter, some
          { tokens := map_to_ids masked cfg.word2id,
            pos := map_to_ids inst.stanford_pos (fun t => pos2id.lookup t),
            ner := map_to_ids inst.stanford_ner (fun t => ner2id.lookup t),
            subj_positions := get_positions inst.subj_start inst.subj_end l,
            obj_positions := get_positions inst.obj_start inst.obj_end l,
            relation := relation })

/-- The retained, encoded data list of Dataset.__init__. -/
def datasetRows (cfg : Config) (rel2id : List (String × Int))
    (instances : List Instance) : List Row :=
  instances.filterMap (fun inst => (processInstance cfg rel2id inst).2)

/-- The discard counter of Dataset.__init__. -/
def discardCount (cfg : Config) (rel2id : List (String × Int))
    (instances : List Instance) : Nat :=
  instances.countP (fun inst => ((processInstance cfg rel2id inst).2).isNone)

/-- The rel_cnt dict update of Dataset.__init__: if rel not in rel_cnt, insert it
with 0, then add 1 (dict insertion order keeps first-seen key order). -/
def bump : List (String × Nat) → String → List (String × Nat)
  | [], r => [(r, 1)]
  | (s, n) :: t, r => if s = r then (s, n + 1) :: t else (s, n) :: bump t r

/-- The per-relation occurrence counter rel_cnt after the preprocessing loop:
each kept instance bumps its relation string. -/
def relCnt (cfg : Config) (rel2id : List (String × Int))
    (instances : List Instance) : List (String × Nat) :=
  instances.foldl
    (fun m inst =>
      if ((processInstance cfg rel2id inst).2).isSome then bump m inst.relation else m)
    []

/-- The write loop over rel_cnt: for rel in rel_cnt, arr[rel2id[rel]] = val(cnt).
A numpy array indexed by relation id is embedded as a function Int → β
initialized to z. -/
def writeArr {β : Type} (rel2id : List (String × Int)) (z : Int → β) (val : Nat → β)
    (cnt : List (String × Nat)) : Int → β :=
  cnt.foldl (fun f p =>
    match rel2id.lookup p.1 with
    | some rid => Function.update f rid (val p.2)
    | none => f) z

/-- rel_distrib: zero array, one write per counted relation, then normalization
by the sum over all len(rel2id) entries. -/
def rel_distrib (rel2id : List (String × Int)) (cnt : List (String × Nat)) : Int → ℚ :=
  let raw := writeArr rel2id (fun _ => 0) (fun n => (n : ℚ)) cnt
  let total := ((List.range rel2id.length).map (fun (i : Nat) => raw (i : Int))).sum
  fun i => raw i / total

/-- np.max of a nonempty array (every call here is on a nonempty array). -/
def npMax (l : List ℝ) : ℝ := l.foldl max (l.headD 0)

/-- log_prior: zero array, one log-count write per counted relation, then the
subtraction of the array maximum. -/
noncomputable def log_prior (rel2id : List (String × Int)) (cnt : List (String × Nat)) :
    Int → ℝ :=
  let raw := writeArr rel2id (fun _ => (0 : ℝ)) (fun n => Real.log (n : ℝ)) cnt
  let max_log := npMax ((List.range rel2id.length).map (fun (i : Nat) => raw (i : Int)))
  fun i => raw i - max_log

theorem foldl_evalStep_eq (weights : Int → ℚ) :
    ∀ (pairs : List (Int × Int)) (c gu go : ℚ),
      pairs.foldl (evalStep weights) (c, gu, go) =
        (c + specCorrectTotal weights pairs,
          gu + specGuessedTotal weights pairs,
          go + specGoldTotal weights pairs)
  | [], c, gu, go => by
      simp [specCorrectTotal, specGuessedTotal, specGoldTotal]
  | pg :: rest, c, gu, go => by
      rw [List.foldl_cons, evalStep]
      by_cases h1 : pg.2 = NO_RELATION <;> by_cases h2 : pg.1 = NO_RELATION <;>
        by_cases h3 : pg.2 = pg.1 <;>
          simp only [h1, h2, h3, if_pos, if_neg, ite_true, ite_false, ne_eq,
            not_true_eq_false, not_false_eq_true, and_true, and_false, true_and, false_and,
            if_true, if_false, foldl_evalStep_eq weights rest, specCorrectTotal,
            specGuessedTotal, specGoldTotal, List.map_cons, List.sum_cons] <;>
          first
            | (exfalso; exact h1 (h3 ▸ h2))
            | (exfalso; exact h2 (h3.symm ▸ h1))
            | (simp_all
               try ring_nf
               try exact ⟨trivial, trivial, trivial⟩
               try exact ⟨fun h => absurd h.symm h3, trivial, trivial⟩)

/-- C1: for equal-length prediction and gold lists and any weight map, eval
accumulates the three totals by the four-case no-relation rule — equivalently,
guessed collects the gold label's weight whenever the prediction is a real
relation, gold collects it whenever the gold label is a real relation, and
correct collects it whenever the prediction is a real relation equal to gold;
every increment uses the gold label's weight — and returns precision =
correct/guessed (0 when guessed is 0), recall = correct/gold (0 when gold is 0)
and f1 = 2PR/(P+R) (0 when P+R is 0).  In particular
eval [1,0] [1,1] {1 ↦ 2} = (1, 1/2, 2/3). -/
theorem eval_four_case_rule (pred labels : List Int) (weights : Int → ℚ)
    (hlen : pred.length = labels.length) :
    (eval pred labels weights =
      (let gu := specGuessedTotal weights (pred.zip labels)
       let go := specGoldTotal weights (pred.zip labels)
       let co := specCorrectTotal weights (pred.zip labels)
       let prec := if gu > 0 then co / gu else 0
       let rcl := if go > 0 then co / go else 0
       (prec, rcl, if prec + rcl > 0 then 2 * prec * rcl / (prec + rcl) else 0)))
    ∧ eval [1, 0] [1, 1] (fun i => if i = 1 then 2 else 0) = (1, 1/2, 2/3) := by
  constructor
  · show eval pred labels weights = _
    rw [eval, foldl_evalStep_eq]
    simp
  · norm_num [eval, evalStep, NO_RELATION, List.foldl]

/-- Witness for C1 at pred = [1,0], labels = [1,1], weights = {1 ↦ 2}. -/
theorem eval_four_case_rule_witness :
    ([1, 0] : List Int).length = ([1, 1] : List Int).length
    ∧ ((eval [1, 0] [1, 1] (fun i => if i = 1 then 2 else 0) =
        (let w : Int → ℚ := fun i => if i = 1 then 2 else 0
         let pr : List (Int × Int) := [(1, 1), (0, 1)]
         let gu := specGuessedTotal w pr
         let go := specGoldTotal w pr
         let co := specCorrectTotal w pr
         let prec := if gu > 0 then co / gu else 0
         let rcl := if go > 0 then co / go else 0
         (prec, rcl, if prec + rcl > 0 then 2 * prec * rcl / (prec + rcl) else 0)))
      ∧ eval [1, 0] [1, 1] (fun i => if i = 1 then 2 else 0) = (1, 1/2, 2/3)) :=
  ⟨rfl, eval_four_case_rule [1, 0] [1, 1] (fun i => if i = 1 then 2 else 0) rfl⟩

/-- C5: for 0 ≤ start ≤ end < length, get_positions returns a sequence of length
exactly length whose value at index i is i - start (strictly negative there) for
i < start, 0 for start ≤ i ≤ end, and i - end (strictly positive there) for
end < i < length; both outer parts are strictly increasing in i since the value
is an affine function of i with slope one. -/
theorem get_positions_correct (s e l : Nat) (hse : s ≤ e) (hel : e < l) :
    (get_positions s e l).length = l
    ∧ (∀ i : Nat, i < s → (get_positions s e l)[i]? = some ((i : Int) - (s : Int)))
    ∧ (∀ i : Nat, s ≤ i → i ≤ e → (get_positions s e l)[i]? = some 0)
    ∧ (∀ i : Nat, e < i → i < l → (get_positions s e l)[i]? = some ((i : Int) - (e : Int)))
    ∧ (∀ i : Nat, i < s → (i : Int) - (s : Int) < 0)
    ∧ (∀ i : Nat, e < i → 0 < (i : Int) - (e : Int)) := by
  have hmid : ((e : Int) - (s : Int) + 1).toNat = e - s + 1 := by omega
  refine ⟨?_, ?_, ?_, ?_, ?_, ?_⟩
  · simp [get_positions, hmid]
    omega
  · intro i hi
    rw [get_positions, List.append_assoc, List.getElem?_append,
      if_pos (by simpa using hi)]
    simp [hi]
  · intro i hi1 hi2
    rw [get_positions, List.append_assoc, List.getElem?_append,
      if_neg (by simp; omega), List.getElem?_append,
      if_pos (by simp [hmid]; omega)]
    simp only [List.length_map, List.length_range, List.getElem?_replicate]
    rw [if_pos (by simp [hmid]; omega)]
  · intro i hi1 hi2
    rw [get_positions, List.append_assoc, List.getElem?_append,
      if_neg (by simp; omega), List.getElem?_append,
      if_neg (by simp [hmid]; omega)]
    simp only [List.length_map, List.length_range, List.length_replicate, hmid,
      List.getElem?_map]
    rw [List.getElem?_range (by omega)]
    simp only [Option.map_some']
    congr 1
    omega
  · intro i hi
    omega
  · intro i hi
    omega

/-- Witness for C5 at start = 1, end = 2, length = 5. -/
theorem get_positions_correct_witness :
    (1 : Nat) ≤ 2 ∧ (2 : Nat) < 5
    ∧ ((get_positions 1 2 5).length = 5
      ∧ (∀ i : Nat, i < 1 → (get_positions 1 2 5)[i]? = some ((i : Int) - ((1 : Nat) : Int)))
      ∧ (∀ i : Nat, 1 ≤ i → i ≤ 2 → (get_positions 1 2 5)[i]? = some 0)
      ∧ (∀ i : Nat, 2 < i → i < 5 → (get_positions 1 2 5)[i]? = some ((i : Int) - ((2 : Nat) : Int)))
      ∧ (∀ i : Nat, i < 1 → (i : Int) - ((1 : Nat) : Int) < 0)
      ∧ (∀ i : Nat, 2 < i → 0 < (i : Int) - ((2 : Nat) : Int))) :=
  ⟨by decide, by decide, get_positions_correct 1 2 5 (by decide) (by decide)⟩

/-- C7: map_to_ids preserves the input length and maps each in-vocabulary token
to its vocabulary id and each out-of-vocabulary token to the fixed unknown id;
it is a total function, so no failure occurs on unknown symbols. -/
theorem map_to_ids_correct (tokens : List String) (vocab : String → Option Int) :
    (map_to_ids tokens vocab).length = tokens.length
    ∧ ∀ (i : Nat) (t : String), tokens[i]? = some t →
        (map_to_ids tokens vocab)[i]? =
          some (match vocab t with
            | some v => v
            | none => UNK_ID) := by
  constructor
  · simp [map_to_ids]
  · intro i t ht
    simp [map_to_ids, ht]

/-- Witness for C7 at tokens = ["a", "zz"], vocab = {"a" ↦ 7}: index 1 is out of
vocabulary and maps to the unknown id. -/
theorem map_to_ids_correct_witness :
    (["a", "zz"] : List String)[1]? = some "zz"
    ∧ (map_to_ids ["a", "zz"] (fun t => if t = "a" then some 7 else none))[1]? =
        some (match (if ("zz" : String) = "a" then some (7 : Int) else none) with
          | some v => v
          | none => UNK_ID) :=
  ⟨rfl, (map_to_ids_correct ["a", "zz"] (fun t => if t = "a" then some 7 else none)).2
    1 "zz" rfl⟩

theorem foldl_rel_set_eq :
    ∀ (rels : List String) (acc : List String),
      rels.foldl (fun a r => if r ∈ a then a else a ++ [r]) acc
        = acc ++ firstSeen (rels.filter (fun s => s ∉ acc))
  | [], acc => by simp [firstSeen]
  | r :: rest, acc => by
      by_cases h : r ∈ acc
      · rw [List.foldl_cons]
        simp only [if_pos h]
        rw [foldl_rel_set_eq rest acc]
        have : (r :: rest).filter (fun s => s ∉ acc) = rest.filter (fun s => s ∉ acc) := by
          rw [List.filter_cons]
          simp [h]
        rw [this]
      · rw [List.foldl_cons]
        simp only [if_neg h]
        rw [foldl_rel_set_eq rest (acc ++ [r])]
        have h2 : (r :: rest).filter (fun s => s ∉ acc) = r :: rest.filter (fun s => s ∉ acc) := by
          rw [List.filter_cons]
          simp [h]
        rw [h2]
        rw [firstSeen]
        have h3 : (rest.filter (fun s => s ∉ acc)).filter (fun s => s ≠ r)
            = rest.filter (fun s => s ∉ acc ++ [r]) := by
          rw [List.filter_filter]
          apply List.filter_congr
          intro x _
          simp [List.mem_append, not_or, And.comm]
        rw [h3]
        simp

/-- C6: with no supplied relation vocabulary, the built rel_set is exactly the
no-relation label followed by the remaining distinct relation strings in
first-seen order, so no_relation gets id 0 regardless of its encounter order
(even when it never occurs) and the rest get ids 1, 2, ... in first-seen order;
in particular relations [no_relation, A, B, A] yield the map
[no_relation ↦ 0, A ↦ 1, B ↦ 2]. -/
theorem get_id_maps_correct (instances : List Instance) :
    build_rel_set instances
      = "no_relation"
          :: firstSeen ((instances.map Instance.relation).filter (fun s => s ≠ "no_relation"))
    ∧ (get_id_maps_rel2id instances).lookup "no_relation" = some 0
    ∧ get_id_maps_rel2id
        [⟨[], [], [], 0, 0, 0, 0, "", "", "no_relation"⟩,
          ⟨[], [], [], 0, 0, 0, 0, "", "", "A"⟩,
          ⟨[], [], [], 0, 0, 0, 0, "", "", "B"⟩,
          ⟨[], [], [], 0, 0, 0, 0, "", "", "A"⟩]
        = [("no_relation", 0), ("A", 1), ("B", 2)] := by
  have hset : build_rel_set instances
      = "no_relation"
          :: firstSeen ((instances.map Instance.relation).filter (fun s => s ≠ "no_relation")) := by
    rw [build_rel_set,
      ← List.foldl_map Instance.relation (fun a r => if r ∈ a then a else a ++ [r])
        instances ["no_relation"],
      foldl_rel_set_eq]
    have : (instances.map Instance.relation).filter (fun s => s ∉ (["no_relation"] : List String))
        = (instances.map Instance.relation).filter (fun s => s ≠ "no_relation") := by
      apply List.filter_congr
      intro x _
      simp
    rw [this]
    simp
  refine ⟨hset, ?_, by decide⟩
  rw [get_id_maps_rel2id, hset, List.enum_cons]
  simp [List.lookup]

theorem sortKeyLe_trans (a b c : Nat × Nat × Row) :
    sortKeyLe a b → sortKeyLe b c → sortKeyLe a c := by
  simp only [sortKeyLe, Bool.or_eq_true, Bool.and_eq_true, decide_eq_true_eq]
  omega

theorem sortKeyLe_total (a b : Nat × Nat × Row) : sortKeyLe a b || sortKeyLe b a := by
  simp only [sortKeyLe, Bool.or_eq_true, Bool.and_eq_true, decide_eq_true_eq]
  omega

theorem mkTriples_getElem? (lens : List Nat) (rows : List Row) (k : Nat) :
    (mkTriples lens rows)[k]? = ((lens.zip rows)[k]?).map (fun lr => (lr.1, k, lr.2)) := by
  simp [mkTriples, List.getElem?_enum]
  cases (lens.zip rows)[k]? <;> simp

theorem mem_mkTriples {lens : List Nat} {rows : List Row} {t : Nat × Nat × Row}
    (h : t ∈ mkTriples lens rows) :
    lens[t.2.1]? = some t.1 ∧ rows[t.2.1]? = some t.2.2 := by
  rw [mkTriples] at h
  obtain ⟨p, hp, rfl⟩ := List.mem_map.1 h
  rw [List.mem_enum_iff_getElem?] at hp
  obtain ⟨h1, h2⟩ := List.getElem?_zip_eq_some.1 hp
  exact ⟨h1, h2⟩

theorem mkTriples_map_row {lens : List Nat} {rows : List Row}
    (h : lens.length = rows.length) :
    (mkTriples lens rows).map (fun t => t.2.2) = rows := by
  apply List.ext_getElem?
  intro k
  simp only [List.getElem?_map, mkTriples_getElem?]
  rcases Nat.lt_or_ge k rows.length with hk | hk
  · have h1 : lens[k]?.isSome := by simp [List.getElem?_eq_getElem (h ▸ hk)]
    have h2 : rows[k]?.isSome := by simp [List.getElem?_eq_getElem hk]
    obtain ⟨a, ha⟩ := Option.isSome_iff_exists.1 h1
    obtain ⟨b, hb⟩ := Option.isSome_iff_exists.1 h2
    rw [show (lens.zip rows)[k]? = some (a, b) from List.getElem?_zip_eq_some.2 ⟨ha, hb⟩]
    simp [hb]
  · have h2 : rows[k]? = none := List.getElem?_eq_none hk
    have h1 : (lens.zip rows)[k]? = none := by
      apply List.getElem?_eq_none
      simp [List.length_zip]
      omega
    simp [h1, h2]

theorem mem_mkTriples_len {rows : List Row} {t : Nat × Nat × Row}
    (h : t ∈ mkTriples (rows.map rowLen) rows) :
    t.1 = rowLen t.2.2 ∧ rows[t.2.1]? = some t.2.2 := by
  obtain ⟨h1, h2⟩ := mem_mkTriples h
  rw [List.getElem?_map, h2] at h1
  simp at h1
  exact ⟨h1.symm, h2⟩

/-- C4: sort_all returns the rows reordered so that token-sequence lengths are
non-increasing from first to last row, the output rows are a permutation of the
input rows, and the returned index list gives, for each sorted position, the
original intra-chunk index of the row placed there (out[k] = rows[orig_idx[k]]). -/
theorem sort_all_correct (rows : List Row) :
    (sort_all (rows.map rowLen) rows).1.Perm rows
    ∧ ((sort_all (rows.map rowLen) rows).1.map rowLen).Pairwise (fun a b => b ≤ a)
    ∧ ∀ k : Nat, (sort_all (rows.map rowLen) rows).1[k]?
        = ((sort_all (rows.map rowLen) rows).2[k]?.bind (fun i => rows[i]?)) := by
  have hlen : (rows.map rowLen).length = rows.length := List.length_map _ _
  have hperm0 : ((mkTriples (rows.map rowLen) rows).mergeSort sortKeyLe).Perm
      (mkTriples (rows.map rowLen) rows) := List.mergeSort_perm _ _
  have hsorted := List.sorted_mergeSort sortKeyLe_trans sortKeyLe_total
    (mkTriples (rows.map rowLen) rows)
  refine ⟨?_, ?_, ?_⟩
  · have := hperm0.map (fun t => t.2.2)
    rw [mkTriples_map_row hlen] at this
    exact this
  · rw [sort_all]
    simp only [List.map_map]
    rw [List.pairwise_map]
    apply hsorted.imp_of_mem
    intro a b ha hb hab
    have ha2 := (mem_mkTriples_len (List.mem_mergeSort.1 ha)).1
    have hb2 := (mem_mkTriples_len (List.mem_mergeSort.1 hb)).1
    rw [sortKeyLe] at hab
    simp only [Bool.or_eq_true, Bool.and_eq_true, decide_eq_true_eq] at hab
    simp only [Function.comp]
    omega
  · intro k
    rw [sort_all]
    simp only [List.getElem?_map]
    cases hk : ((mkTriples (rows.map rowLen) rows).mergeSort sortKeyLe)[k]? with
    | none => simp
    | some t =>
        have ht : t ∈ (mkTriples (rows.map rowLen) rows).mergeSort sortKeyLe :=
          List.getElem?_mem hk
        have := (mem_mkTriples_len (List.mem_mergeSort.1 ht)).2
        simp [this]

theorem pairIdxLe_trans (a b c : Nat × Row) :
    pairIdxLe a b → pairIdxLe b c → pairIdxLe a c := by
  simp only [pairIdxLe, decide_eq_true_eq]
  omega

theorem pairIdxLe_total (a b : Nat × Row) : pairIdxLe a b || pairIdxLe b a := by
  simp only [pairIdxLe, Bool.or_eq_true, decide_eq_true_eq]
  omega

theorem mkTriples_map_pair {lens : List Nat} {rows : List Row}
    (h : lens.length = rows.length) :
    (mkTriples lens rows).map (fun t => (t.2.1, t.2.2)) = rows.enum := by
  apply List.ext_getElem?
  intro k
  simp only [List.getElem?_map, mkTriples_getElem?, List.getElem?_enum]
  rcases Nat.lt_or_ge k rows.length with hk | hk
  · have h1 : lens[k]?.isSome := by simp [List.getElem?_eq_getElem (h ▸ hk)]
    have h2 : rows[k]?.isSome := by simp [List.getElem?_eq_getElem hk]
    obtain ⟨a, ha⟩ := Option.isSome_iff_exists.1 h1
    obtain ⟨b, hb⟩ := Option.isSome_iff_exists.1 h2
    rw [show (lens.zip rows)[k]? = some (a, b) from List.getElem?_zip_eq_some.2 ⟨ha, hb⟩]
    simp [hb]
  · have h2 : rows[k]? = none := List.getElem?_eq_none hk
    have h1 : (lens.zip rows)[k]? = none := by
      apply List.getElem?_eq_none
      simp [List.length_zip]
      omega
    simp [h1, h2]

theorem enum_pairwise_pairIdxLe (rows : List Row) :
    rows.enum.Pairwise (fun a b => pairIdxLe a b = true) := by
  rw [List.pairwise_iff_getElem]
  intro i j hi hj hij
  rw [List.getElem_enum, List.getElem_enum]
  simp only [pairIdxLe, decide_eq_true_eq]
  omega

/-- C2 core: scattering sort_all's output through its restore permutation
recovers the chunk. -/
theorem scatter_sort_all (rows : List Row) :
    scatter (sort_all (rows.map rowLen) rows).2 (sort_all (rows.map rowLen) rows).1 = rows := by
  have hlen : (rows.map rowLen).length = rows.length := List.length_map _ _
  have hzip : (sort_all (rows.map rowLen) rows).2.zip (sort_all (rows.map rowLen) rows).1
      = ((mkTriples (rows.map rowLen) rows).mergeSort sortKeyLe).map
          (fun t => (t.2.1, t.2.2)) := by
    rw [sort_all]
    exact (List.zip_map' _ _ _)
  have hperm : List.Perm (((mkTriples (rows.map rowLen) rows).mergeSort sortKeyLe).map
      (fun t => (t.2.1, t.2.2))) rows.enum := by
    have := (List.mergeSort_perm (mkTriples (rows.map rowLen) rows) sortKeyLe).map
      (fun t => (t.2.1, t.2.2))
    rw [mkTriples_map_pair hlen] at this
    exact this
  rw [scatter, hzip]
  have hperm2 : List.Perm
      ((((mkTriples (rows.map rowLen) rows).mergeSort sortKeyLe).map
        (fun t => (t.2.1, t.2.2))).mergeSort pairIdxLe) rows.enum :=
    (List.mergeSort_perm _ _).trans hperm
  have heq : (((mkTriples (rows.map rowLen) rows).mergeSort sortKeyLe).map
      (fun t => (t.2.1, t.2.2))).mergeSort pairIdxLe = rows.enum := by
    refine @List.Perm.eq_of_sorted _ (fun a b => pairIdxLe a b) _ _ ?_ ?_ ?_ ?_
    · intro a b ha hb h1 h2
      have ha2 : a ∈ rows.enum := hperm2.subset (by simpa using ha)
      rw [List.mem_enum_iff_getElem?] at ha2 hb
      simp only [pairIdxLe, decide_eq_true_eq] at h1 h2
      have hfst : a.1 = b.1 := Nat.le_antisymm h1 h2
      have : a.2 = b.2 := by
        rw [hfst] at ha2
        rw [ha2] at hb
        exact (Option.some_inj.1 hb)
      exact Prod.ext hfst this
    · exact List.sorted_mergeSort pairIdxLe_trans pairIdxLe_total _
    · exact enum_pairwise_pairIdxLe rows
    · exact hperm2
  rw [heq, List.enum_map_snd]

theorem chunkList_flatten {α : Type} (batch_size : Nat) (hbs : 0 < batch_size) :
    ∀ (l : List α), (chunkList batch_size l).flatten = l := by
  have H : ∀ (n : Nat) (l : List α), l.length = n → (chunkList batch_size l).flatten = l := by
    intro n
    induction n using Nat.strong_induction_on with
    | _ n ih =>
      intro l hn
      rw [chunkList]
      split
      · rename_i h
        rcases h with h | h
        · omega
        · rw [List.isEmpty_iff] at h
          simp [h]
      · rename_i h
        push_neg at h
        have h2 : l ≠ [] := by
          intro he
          rw [he] at h
          simp at h
        have h1 : 0 < l.length := List.length_pos.2 h2
        rw [List.flatten_cons,
          ih (l.drop batch_size).length (by simp; omega) (l.drop batch_size) rfl,
          List.take_append_drop]
  intro l
  exact H l.length l rfl

/-- C2: concatenating all batches' restore-permutation-applied rows, in chunk
order, reproduces the pre-batch instance order exactly. -/
theorem batches_restore_order (data : List Row) (batch_size : Nat) (hbs : 0 < batch_size) :
    ((chunkList batch_size data).map
      (fun chunk =>
        scatter (sort_all (chunk.map rowLen) chunk).2 (sort_all (chunk.map rowLen) chunk).1)).flatten
      = data := by
  have hmap : (chunkList batch_size data).map
      (fun chunk =>
        scatter (sort_all (chunk.map rowLen) chunk).2 (sort_all (chunk.map rowLen) chunk).1)
      = (chunkList batch_size data).map id :=
    List.map_congr_left (fun chunk _ => scatter_sort_all chunk)
  rw [hmap, List.map_id, chunkList_flatten batch_size hbs data]

/-- Witness for C2 at a two-row list and batch size 1. -/
theorem batches_restore_order_witness :
    (0 : Nat) < 1
    ∧ ((chunkList 1 [(⟨[5], [], [], [], [], 0⟩ : Row), ⟨[7, 8], [], [], [], [], 1⟩]).map
      (fun chunk =>
        scatter (sort_all (chunk.map rowLen) chunk).2 (sort_all (chunk.map rowLen) chunk).1)).flatten
      = [(⟨[5], [], [], [], [], 0⟩ : Row), ⟨[7, 8], [], [], [], [], 1⟩] :=
  ⟨by decide,
    batches_restore_order [⟨[5], [], [], [], [], 0⟩, ⟨[7, 8], [], [], [], [], 1⟩] 1 (by decide)⟩

theorem le_foldl_max {α : Type} [LinearOrder α] : ∀ (l : List α) (a : α), a ≤ l.foldl max a
  | [], _ => le_refl _
  | y :: t, a => le_trans (le_max_left a y) (le_foldl_max t (max a y))

theorem foldl_max_le {α : Type} [LinearOrder α] : ∀ (l : List α) (a : α), ∀ x ∈ l, x ≤ l.foldl max a
  | [], _ => by simp
  | y :: t, a => by
      intro x hx
      rcases List.mem_cons.1 hx with rfl | hx
      · exact le_trans (le_max_right a x) (le_foldl_max t _)
      · exact foldl_max_le t _ x hx

theorem foldl_max_mem {α : Type} [LinearOrder α] {l : List α} {a : α} :
    l.foldl max a = a ∨ l.foldl max a ∈ l := by
  induction l generalizing a with
  | nil => simp
  | cons y t ih =>
      simp only [List.foldl_cons]
      rcases @ih (max a y) with h | h
      · rw [h]
        rcases le_total a y with hy | hy
        · right
          rw [max_eq_right hy]
          exact List.mem_cons_self _ _
        · left
          rw [max_eq_left hy]
      · right
        exact List.mem_cons_of_mem _ h

example : get_padded_tensor [[3, 4], [9]] 2 = [[3, 4], [9, 0]] := by decide
example : get_padded_tensor [[], [9, 9, 9]] 2 = [[0, 0, 0], [9, 9, 9]] := by decide

/-- C3: each padded array has one row per chunk sequence; its width is
min(maximum sequence length in the chunk, MAXLEN), the maximum being attained by
some sequence of the chunk; every row's first min(len, width) entries equal the
corresponding sequence's prefix and all remaining entries are the padding id;
array shapes derive from the chunk's own size (batch size = chunk length at
every call site, covering the smaller final chunk). -/
theorem get_padded_tensor_correct (tokens_list : List (List Int)) (hne : tokens_list ≠ []) :
    (get_padded_tensor tokens_list tokens_list.length).length = tokens_list.length
    ∧ (tokens_list.map List.length).foldl max 0 ∈ tokens_list.map List.length
    ∧ (∀ s ∈ tokens_list, s.length ≤ (tokens_list.map List.length).foldl max 0)
    ∧ (∀ row ∈ get_padded_tensor tokens_list tokens_list.length,
        row.length = min ((tokens_list.map List.length).foldl max 0) MAXLEN)
    ∧ (∀ (k : Nat) (s : List Int), tokens_list[k]? = some s →
        (get_padded_tensor tokens_list tokens_list.length)[k]?
          = some (s.take (min (min ((tokens_list.map List.length).foldl max 0) MAXLEN) s.length)
              ++ List.replicate
                  (min ((tokens_list.map List.length).foldl max 0) MAXLEN
                    - min (min ((tokens_list.map List.length).foldl max 0) MAXLEN) s.length)
                  PAD_ID)
        ∧ (∀ j : Nat, j < min (min ((tokens_list.map List.length).foldl max 0) MAXLEN) s.length →
            ((get_padded_tensor tokens_list tokens_list.length)[k]?.bind (fun row => row[j]?))
              = s[j]?)
        ∧ (∀ j : Nat, min (min ((tokens_list.map List.length).foldl max 0) MAXLEN) s.length ≤ j →
            j < min ((tokens_list.map List.length).foldl max 0) MAXLEN →
            ((get_padded_tensor tokens_list tokens_list.length)[k]?.bind (fun row => row[j]?))
              = some PAD_ID)) := by
  refine ⟨?_, ?_, ?_, ?_, ?_⟩
  · simp [get_padded_tensor]
  · rcases foldl_max_mem (l := tokens_list.map List.length) (a := 0) with h | h
    · cases tokens_list with
      | nil => exact absurd rfl hne
      | cons s rest =>
          have hle : s.length ≤ ((s :: rest).map List.length).foldl max 0 :=
            foldl_max_le _ _ _ (by simp)
          rw [h] at hle
          have : s.length = 0 := Nat.le_zero.1 hle
          rw [h, ← this]
          simp
    · exact h
  · intro s hs
    exact foldl_max_le _ _ _ (List.mem_map_of_mem _ hs)
  · intro row hrow
    rw [get_padded_tensor] at hrow
    simp only [Nat.sub_self, List.replicate_zero, List.append_nil] at hrow
    obtain ⟨s, hs, rfl⟩ := List.mem_map.1 hrow
    have hcur : min (min ((tokens_list.map List.length).foldl max 0) MAXLEN) s.length
        ≤ s.length := Nat.min_le_right _ _
    have hcur2 : min (min ((tokens_list.map List.length).foldl max 0) MAXLEN) s.length
        ≤ min ((tokens_list.map List.length).foldl max 0) MAXLEN := Nat.min_le_left _ _
    simp only [List.length_append, List.length_take, List.length_replicate]
    omega
  · intro k s hks
    have hk : k < tokens_list.length := by
      by_contra hk
      rw [List.getElem?_eq_none (Nat.le_of_not_lt hk)] at hks
      exact Option.noConfusion hks
    have hout : (get_padded_tensor tokens_list tokens_list.length)[k]?
        = some (s.take (min (min ((tokens_list.map List.length).foldl max 0) MAXLEN) s.length)
            ++ List.replicate
                (min ((tokens_list.map List.length).foldl max 0) MAXLEN
                  - min (min ((tokens_list.map List.length).foldl max 0) MAXLEN) s.length)
                PAD_ID) := by
      rw [get_padded_tensor]
      simp only [Nat.sub_self, List.replicate_zero, List.append_nil, List.getElem?_map, hks]
      rfl
    refine ⟨hout, ?_, ?_⟩
    · intro j hj
      rw [hout]
      simp only [Option.some_bind]
      rw [List.getElem?_append, if_pos (by simp only [List.length_take]; omega)]
      exact List.getElem?_take_of_lt hj
    · intro j hj1 hj2
      rw [hout]
      simp only [Option.some_bind]
      have hlt : min (min ((tokens_list.map List.length).foldl max 0) MAXLEN) s.length
          ≤ s.length := Nat.min_le_right _ _
      rw [List.getElem?_append, if_neg (by simp only [List.length_take]; omega)]
      rw [List.getElem?_replicate]
      rw [if_pos (by simp only [List.length_take]; omega)]

/-- Witness for C3 at the chunk [[3,4],[9]]. -/
theorem get_padded_tensor_correct_witness :
    ([[3, 4], [9]] : List (List Int)) ≠ []
    ∧ ((get_padded_tensor ([[3, 4], [9]] : List (List Int)) ([[3, 4], [9]] : List (List Int)).length).length = ([[3, 4], [9]] : List (List Int)).length
    ∧ (([[3, 4], [9]] : List (List Int)).map List.length).foldl max 0 ∈ ([[3, 4], [9]] : List (List Int)).map List.length
    ∧ (∀ s ∈ ([[3, 4], [9]] : List (List Int)), s.length ≤ (([[3, 4], [9]] : List (List Int)).map List.length).foldl max 0)
    ∧ (∀ row ∈ get_padded_tensor ([[3, 4], [9]] : List (List Int)) ([[3, 4], [9]] : List (List Int)).length,
        row.length = min ((([[3, 4], [9]] : List (List Int)).map List.length).foldl max 0) MAXLEN)
    ∧ (∀ (k : Nat) (s : List Int), ([[3, 4], [9]] : List (List Int))[k]? = some s →
        (get_padded_tensor ([[3, 4], [9]] : List (List Int)) ([[3, 4], [9]] : List (List Int)).length)[k]?
          = some (s.take (min (min ((([[3, 4], [9]] : List (List Int)).map List.length).foldl max 0) MAXLEN) s.length)
              ++ List.replicate
                  (min ((([[3, 4], [9]] : List (List Int)).map List.length).foldl max 0) MAXLEN
                    - min (min ((([[3, 4], [9]] : List (List Int)).map List.length).foldl max 0) MAXLEN) s.length)
                  PAD_ID)
        ∧ (∀ j : Nat, j < min (min ((([[3, 4], [9]] : List (List Int)).map List.length).foldl max 0) MAXLEN) s.length →
            ((get_padded_tensor ([[3, 4], [9]] : List (List Int)) ([[3, 4], [9]] : List (List Int)).length)[k]?.bind (fun row => row[j]?))
              = s[j]?)
        ∧ (∀ j : Nat, min (min ((([[3, 4], [9]] : List (List Int)).map List.length).foldl max 0) MAXLEN) s.length ≤ j →
            j < min ((([[3, 4], [9]] : List (List Int)).map List.length).foldl max 0) MAXLEN →
            ((get_padded_tensor ([[3, 4], [9]] : List (List Int)) ([[3, 4], [9]] : List (List Int)).length)[k]?.bind (fun row => row[j]?))
              = some PAD_ID))) :=
  ⟨by decide, get_padded_tensor_correct [[3, 4], [9]] (by decide)⟩

theorem processInstance_none_iff (cfg : Config) (rel2id : List (String × Int))
    (inst : Instance) :
    ((processInstance cfg rel2id inst).2 = none) ↔
      (inst.token.length > MAXLEN ∨ inst.token.length ≠ inst.stanford_ner.length
        ∨ rel2id.lookup inst.relation = none) := by
  cases hl : rel2id.lookup inst.relation with
  | none =>
      rw [processInstance]
      split
      · exact iff_of_true rfl (by tauto)
      · simp only [hl]
        simp
  | some r =>
      rw [processInstance]
      split
      · rename_i h
        exact iff_of_true rfl (by tauto)
      · rename_i h
        push_neg at h
        simp only [hl]
        simp
        omega

theorem length_eq_discard_add_rows (cfg : Config) (rel2id : List (String × Int)) :
    ∀ instances : List Instance,
      instances.length
        = discardCount cfg rel2id instances + (datasetRows cfg rel2id instances).length := by
  intro instances
  induction instances with
  | nil => simp [discardCount, datasetRows]
  | cons i t ih =>
      simp only [discardCount, datasetRows, List.countP_cons, List.filterMap_cons,
        List.length_cons] at ih ⊢
      cases hpi : (processInstance cfg rel2id i).2 with
      | none => simp [hpi]; omega
      | some r => simp [hpi]; omega

/-- C8: the number of input instances equals the discard count plus the sum of
the produced batch sizes, and an instance is discarded (counted, skipped, no
failure value) exactly when its token length exceeds MAXLEN, its NER length
differs from its token length, or its relation is absent from the active
relation vocabulary. -/
theorem dataset_discard_accounting (cfg : Config) (rel2id : List (String × Int))
    (instances : List Instance) (batch_size : Nat) (hbs : 0 < batch_size) :
    instances.length
      = discardCount cfg rel2id instances
        + ((chunkList batch_size (datasetRows cfg rel2id instances)).map List.length).sum
    ∧ (∀ inst : Instance,
        ((processInstance cfg rel2id inst).2 = none ↔
          (inst.token.length > MAXLEN ∨ inst.token.length ≠ inst.stanford_ner.length
            ∨ rel2id.lookup inst.relation = none))) := by
  constructor
  · have h1 : ((chunkList batch_size (datasetRows cfg rel2id instances)).map List.length).sum
        = (datasetRows cfg rel2id instances).length := by
      rw [← List.length_flatten, chunkList_flatten _ hbs]
    rw [h1]
    exact length_eq_discard_add_rows cfg rel2id instances
  · intro inst
    exact processInstance_none_iff cfg rel2id inst

/-- C10: with use_mask on and lowercasing off, the masking step mutates the
caller's instance in place — for every instance passing the length check, the
post-construction instance's token list is the original list with the subject
span overwritten by the repeated subject placeholder and the object span by the
object placeholder — while with lowercasing on, a fresh list is masked and the
caller's instance is left unchanged; the splice conjuncts pin down that the
overwritten entries are exactly the in-span positions. -/
theorem mask_mutates_in_place (cfg : Config) (rel2id : List (String × Int))
    (inst : Instance) (hmask : cfg.use_mask = true) :
    (cfg.lower = false → inst.token.length ≤ MAXLEN →
      inst.token.length = inst.stanford_ner.length →
      (processInstance cfg rel2id inst).1
        = { inst with token := spliceMask (spliceMask inst.token inst.subj_start inst.subj_end (subjPlaceholder cfg.mask_with_type inst)) inst.obj_start inst.obj_end (objPlaceholder cfg.mask_with_type inst) })
    ∧ (cfg.lower = true → (processInstance cfg rel2id inst).1 = inst)
    ∧ (∀ (toks : List String) (a b : Nat) (v : String) (i : Nat),
        a ≤ toks.length → a ≤ i → i ≤ b → (spliceMask toks a b v)[i]? = some v)
    ∧ (∀ (toks : List String) (a b : Nat) (v : String) (i : Nat),
        i < a → a ≤ toks.length → (spliceMask toks a b v)[i]? = toks[i]?)
    ∧ (∀ (toks : List String) (a b : Nat) (v : String) (i : Nat),
        a ≤ toks.length → a ≤ b + 1 → b < i → (spliceMask toks a b v)[i]? = toks[i]?) := by
  refine ⟨?_, ?_, ?_, ?_, ?_⟩
  · intro hlow h1 h2
    rw [processInstance]
    rw [if_neg (by push_neg; exact ⟨by omega, h2⟩)]
    simp only [hlow, hmask, Bool.false_eq_true, if_false, if_true, not_false_eq_true,
      and_true, and_self, ite_true, ite_false]
    cases hl : rel2id.lookup inst.relation <;> simp [hl]
  · intro hlow
    rw [processInstance]
    split
    · rfl
    · simp only [hlow, hmask, not_true_eq_false, and_false, ite_false]
      cases hl : rel2id.lookup inst.relation <;> simp [hl]
  · intro toks a b v i ha hai hib
    rw [spliceMask, List.append_assoc, List.getElem?_append,
      if_neg (by simp only [List.length_take]; omega)]
    rw [List.getElem?_append,
      if_pos (by simp only [List.length_take, List.length_replicate]; omega)]
    rw [List.getElem?_replicate,
      if_pos (by simp only [List.length_take]; omega)]
  · intro toks a b v i hia ha
    rw [spliceMask, List.append_assoc, List.getElem?_append,
      if_pos (by simp only [List.length_take]; omega)]
    exact List.getElem?_take_of_lt hia
  · intro toks a b v i ha hab hbi
    rw [spliceMask, List.append_assoc, List.getElem?_append,
      if_neg (by simp only [List.length_take]; omega)]
    rw [List.getElem?_append,
      if_neg (by simp only [List.length_take, List.length_replicate]; omega)]
    rw [List.getElem?_drop]
    have harith : b + 1 + (i - (toks.take a).length - (List.replicate (b + 1 - a) v).length) = i := by
      simp only [List.length_take, List.length_replicate]
      omega
    rw [harith]

/-- Witness for C8 at a concrete two-instance list and batch size 1. -/
theorem dataset_discard_accounting_witness :
    (0 : Nat) < 1
    ∧ (([⟨["a"], ["NN"], ["O"], 0, 0, 0, 0, "", "", "r"⟩, ⟨["a"], ["NN"], ["O"], 0, 0, 0, 0, "", "", "x"⟩] : List Instance).length
        = discardCount (⟨false, false, false, fun _ => none⟩ : Config) ([("r", 1)] : List (String × Int)) ([⟨["a"], ["NN"], ["O"], 0, 0, 0, 0, "", "", "r"⟩, ⟨["a"], ["NN"], ["O"], 0, 0, 0, 0, "", "", "x"⟩] : List Instance)
          + ((chunkList 1 (datasetRows (⟨false, false, false, fun _ => none⟩ : Config) ([("r", 1)] : List (String × Int)) ([⟨["a"], ["NN"], ["O"], 0, 0, 0, 0, "", "", "r"⟩, ⟨["a"], ["NN"], ["O"], 0, 0, 0, 0, "", "", "x"⟩] : List Instance))).map List.length).sum
      ∧ (∀ inst : Instance,
          ((processInstance (⟨false, false, false, fun _ => none⟩ : Config) ([("r", 1)] : List (String × Int)) inst).2 = none ↔
            (inst.token.length > MAXLEN ∨ inst.token.length ≠ inst.stanford_ner.length
              ∨ List.lookup inst.relation ([("r", 1)] : List (String × Int)) = none)))) :=
  ⟨by decide, dataset_discard_accounting (⟨false, false, false, fun _ => none⟩ : Config) ([("r", 1)] : List (String × Int)) ([⟨["a"], ["NN"], ["O"], 0, 0, 0, 0, "", "", "r"⟩, ⟨["a"], ["NN"], ["O"], 0, 0, 0, 0, "", "", "x"⟩] : List Instance) 1 (by decide)⟩

/-- Witness for C10 at a concrete masked instance. -/
theorem mask_mutates_in_place_witness :
    (⟨false, true, true, fun _ => none⟩ : Config).use_mask = true
    ∧ (((⟨false, true, true, fun _ => none⟩ : Config).lower = false → (⟨["a", "b", "c"], [], ["O", "O", "O"], 0, 0, 2, 2, "PER", "ORG", "r"⟩ : Instance).token.length ≤ MAXLEN →
        (⟨["a", "b", "c"], [], ["O", "O", "O"], 0, 0, 2, 2, "PER", "ORG", "r"⟩ : Instance).token.length = (⟨["a", "b", "c"], [], ["O", "O", "O"], 0, 0, 2, 2, "PER", "ORG", "r"⟩ : Instance).stanford_ner.length →
        (processInstance (⟨false, true, true, fun _ => none⟩ : Config) [] (⟨["a", "b", "c"], [], ["O", "O", "O"], 0, 0, 2, 2, "PER", "ORG", "r"⟩ : Instance)).1
          = { (⟨["a", "b", "c"], [], ["O", "O", "O"], 0, 0, 2, 2, "PER", "ORG", "r"⟩ : Instance) with token := spliceMask (spliceMask (⟨["a", "b", "c"], [], ["O", "O", "O"], 0, 0, 2, 2, "PER", "ORG", "r"⟩ : Instance).token (⟨["a", "b", "c"], [], ["O", "O", "O"], 0, 0, 2, 2, "PER", "ORG", "r"⟩ : Instance).subj_start (⟨["a", "b", "c"], [], ["O", "O", "O"], 0, 0, 2, 2, "PER", "ORG", "r"⟩ : Instance).subj_end (subjPlaceholder (⟨false, true, true, fun _ => none⟩ : Config).mask_with_type (⟨["a", "b", "c"], [], ["O", "O", "O"], 0, 0, 2, 2, "PER", "ORG", "r"⟩ : Instance))) (⟨["a", "b", "c"], [], ["O", "O", "O"], 0, 0, 2, 2, "PER", "ORG", "r"⟩ : Instance).obj_start (⟨["a", "b", "c"], [], ["O", "O", "O"], 0, 0, 2, 2, "PER", "ORG", "r"⟩ : Instance).obj_end (objPlaceholder (⟨false, true, true, fun _ => none⟩ : Config).mask_with_type (⟨["a", "b", "c"], [], ["O", "O", "O"], 0, 0, 2, 2, "PER", "ORG", "r"⟩ : Instance)) })
      ∧ ((⟨false, true, true, fun _ => none⟩ : Config).lower = true → (processInstance (⟨false, true, true, fun _ => none⟩ : Config) [] (⟨["a", "b", "c"], [], ["O", "O", "O"], 0, 0, 2, 2, "PER", "ORG", "r"⟩ : Instance)).1 = (⟨["a", "b", "c"], [], ["O", "O", "O"], 0, 0, 2, 2, "PER", "ORG", "r"⟩ : Instance))
      ∧ (∀ (toks : List String) (a b : Nat) (v : String) (i : Nat),
          a ≤ toks.length → a ≤ i → i ≤ b → (spliceMask toks a b v)[i]? = some v)
      ∧ (∀ (toks : List String) (a b : Nat) (v : String) (i : Nat),
          i < a → a ≤ toks.length → (spliceMask toks a b v)[i]? = toks[i]?)
      ∧ (∀ (toks : List String) (a b : Nat) (v : String) (i : Nat),
          a ≤ toks.length → a ≤ b + 1 → b < i → (spliceMask toks a b v)[i]? = toks[i]?)) :=
  ⟨rfl, mask_mutates_in_place (⟨false, true, true, fun _ => none⟩ : Config) [] (⟨["a", "b", "c"], [], ["O", "O", "O"], 0, 0, 2, 2, "PER", "ORG", "r"⟩ : Instance) rfl⟩

theorem lookup_cons_eq {β : Type} (s : String) (n : β) (t : List (String × β)) :
    ((s, n) :: t).lookup s = some n := by
  rw [List.lookup_cons]
  simp

theorem lookup_cons_ne {β : Type} {x s : String} (n : β) (t : List (String × β))
    (h : x ≠ s) : ((s, n) :: t).lookup x = t.lookup x := by
  rw [List.lookup_cons]
  have hb : (x == s) = false := by
    simp [h]
  rw [hb]

theorem bump_lookup (r : String) :
    ∀ (m : List (String × Nat)) (x : String),
      (bump m r).lookup x
        = if x = r then some (((m.lookup r).getD 0) + 1) else m.lookup x
  | [], x => by
      by_cases hx : x = r
      · subst hx
        simp [bump, lookup_cons_eq]
      · simp [bump, hx, lookup_cons_ne _ _ hx]
  | (s, n) :: t, x => by
      by_cases hsr : s = r
      · subst hsr
        by_cases hx : x = s
        · subst hx
          simp [bump, lookup_cons_eq]
        · simp [bump, hx, lookup_cons_ne _ _ hx]
      · by_cases hx : x = s
        · subst hx
          rw [bump, if_neg hsr, lookup_cons_eq, lookup_cons_eq,
            if_neg (Ne.symm (fun h => hsr h.symm))]
        · rw [bump, if_neg hsr, lookup_cons_ne _ _ hx, bump_lookup r t x,
            lookup_cons_ne _ _ hx]
          by_cases hxr : x = r
          · subst hxr
            rw [if_pos rfl, if_pos rfl, lookup_cons_ne _ _ hx]
          · rw [if_neg hxr, if_neg hxr]

theorem bump_keys (m : List (String × Nat)) (r : String) :
    (bump m r).map Prod.fst
      = if (m.lookup r).isSome then m.map Prod.fst else m.map Prod.fst ++ [r] := by
  induction m with
  | nil => simp [bump]
  | cons p t ih =>
      obtain ⟨s, n⟩ := p
      by_cases hsr : s = r
      · subst hsr
        rw [bump, if_pos rfl, lookup_cons_eq]
        simp
      · rw [bump, if_neg hsr, lookup_cons_ne n t (fun h => hsr h.symm)]
        simp only [List.map_cons, ih]
        split <;> simp

theorem bump_keys_nodup {m : List (String × Nat)} (r : String)
    (h : (m.map Prod.fst).Nodup) : ((bump m r).map Prod.fst).Nodup := by
  rw [bump_keys]
  split
  · exact h
  · rename_i hnone
    rw [List.nodup_append]
    refine ⟨h, List.nodup_singleton r, ?_⟩
    intro x hx
    simp only [List.mem_singleton]
    intro hxr
    subst hxr
    apply hnone
    rw [List.lookup_isSome_iff]
    obtain ⟨p, hp, hpx⟩ := List.mem_map.1 hx
    exact ⟨p, hp, by simp [hpx]⟩

theorem foldl_bump_lookup :
    ∀ (strs : List String) (m : List (String × Nat)) (r : String),
      (strs.foldl bump m).lookup r
        = match m.lookup r with
          | some n => some (n + strs.count r)
          | none => if r ∈ strs then some (strs.count r) else none
  | [], m, r => by
      cases hm : m.lookup r <;> simp [hm]
  | s :: t, m, r => by
      rw [List.foldl_cons, foldl_bump_lookup t (bump m s) r, bump_lookup s m r]
      by_cases hrs : r = s
      · subst hrs
        rw [if_pos rfl, List.count_cons_self]
        cases hm : m.lookup r <;> simp [hm] <;> omega
      · rw [if_neg hrs, List.count_cons_of_ne hrs]
        cases hm : m.lookup r <;>
          simp [hm, List.mem_cons, hrs]
  

theorem foldl_bump_keys_nodup :
    ∀ (strs : List String) (m : List (String × Nat)),
      (m.map Prod.fst).Nodup → ((strs.foldl bump m).map Prod.fst).Nodup
  | [], m, h => h
  | s :: t, m, h =>
      foldl_bump_keys_nodup t (bump m s) (bump_keys_nodup s h)

theorem foldl_if_bump (cfg : Config) (rel2id : List (String × Int)) :
    ∀ (l : List Instance) (m : List (String × Nat)),
      l.foldl
        (fun m inst =>
          if ((processInstance cfg rel2id inst).2).isSome then bump m inst.relation else m)
        m
      = ((l.filter (fun i => ((processInstance cfg rel2id i).2).isSome)).map
          (fun i => i.relation)).foldl bump m
  | [], m => rfl
  | i :: t, m => by
      rw [List.foldl_cons, List.filter_cons]
      by_cases hp : ((processInstance cfg rel2id i).2).isSome
      · rw [if_pos hp, if_pos hp, List.map_cons, List.foldl_cons,
          foldl_if_bump cfg rel2id t (bump m i.relation)]
      · rw [if_neg hp, if_neg hp, foldl_if_bump cfg rel2id t m]

theorem relCnt_eq (cfg : Config) (rel2id : List (String × Int))
    (instances : List Instance) :
    relCnt cfg rel2id instances
      = ((instances.filter (fun i => ((processInstance cfg rel2id i).2).isSome)).map
          (fun i => i.relation)).foldl bump [] :=
  foldl_if_bump cfg rel2id instances []

theorem lookup_of_mem_of_nodup {β : Type} :
    ∀ {m : List (String × β)} {p : String × β},
      (m.map Prod.fst).Nodup → p ∈ m → m.lookup p.1 = some p.2
  | [], p, _, hp => by simp at hp
  | (s, n) :: t, p, hnd, hp => by
      have hnd2 : (s :: t.map Prod.fst).Nodup := by simpa using hnd
      rcases List.mem_cons.1 hp with rfl | hp
      · exact lookup_cons_eq s n t
      · have hne : p.1 ≠ s := by
          intro he
          have h1 : s ∈ t.map Prod.fst := by
            rw [← he]
            exact List.mem_map_of_mem Prod.fst hp
          exact (List.nodup_cons.1 hnd2).1 h1
        rw [lookup_cons_ne n t hne]
        exact lookup_of_mem_of_nodup (by simpa using (List.nodup_cons.1 hnd2).2) hp

theorem writeArr_eval {β : Type} (rel2id : List (String × Int)) (val : Nat → β) :
    ∀ (cnt : List (String × Nat)) (z : Int → β) (rid : Int),
      (cnt.filterMap (fun p => rel2id.lookup p.1)).Nodup →
      writeArr rel2id z val cnt rid
        = match cnt.find? (fun p => rel2id.lookup p.1 == some rid) with
          | some p => val p.2
          | none => z rid
  | [], z, rid, _ => rfl
  | (r, n) :: t, z, rid, hnd => by
      rw [writeArr, List.foldl_cons]
      cases hl : rel2id.lookup r with
      | none =>
          have hnd2 : (t.filterMap (fun p => rel2id.lookup p.1)).Nodup := by
            rw [List.filterMap_cons] at hnd
            simpa [hl] using hnd
          rw [List.find?_cons_of_neg _ (by simp [hl])]
          have hrec := writeArr_eval rel2id val t z rid hnd2
          rw [writeArr] at hrec
          simp only [hl]
          exact hrec
      | some j =>
          have hcons : ((r, n) :: t).filterMap (fun p => rel2id.lookup p.1)
              = j :: t.filterMap (fun p => rel2id.lookup p.1) := by
            rw [List.filterMap_cons]
            simp [hl]
          rw [hcons] at hnd
          have hj : j ∉ t.filterMap (fun p => rel2id.lookup p.1) :=
            (List.nodup_cons.1 hnd).1
          have hnd2 := (List.nodup_cons.1 hnd).2
          have hrec := writeArr_eval rel2id val t (Function.update z j (val n)) rid hnd2
          rw [writeArr] at hrec
          simp only [hl]
          by_cases hjr : j = rid
          · subst hjr
            rw [List.find?_cons_of_pos _ (by simp [hl])]
            have hfind : t.find? (fun p => rel2id.lookup p.1 == some j) = none := by
              rw [List.find?_eq_none]
              intro p hp hpp
              apply hj
              have hps : rel2id.lookup p.1 = some j := by
                simpa using hpp
              exact List.mem_filterMap.2 ⟨p, hp, hps⟩
            rw [hrec, hfind]
            simp
          · rw [List.find?_cons_of_neg _ (by simp [hl, hjr])]
            rw [hrec]
            cases hf : t.find? (fun p => rel2id.lookup p.1 == some rid) with
            | none => exact Function.update_noteq (fun h => hjr h.symm) _ _
            | some p => rfl

theorem mem_of_lookup_eq_some {β : Type} {l : List (String × β)} {k : String} {b : β}
    (h : l.lookup k = some b) : (k, b) ∈ l := by
  obtain ⟨l1, l2, hl, -⟩ := List.lookup_eq_some_iff.1 h
  rw [hl]
  exact List.mem_append.2 (Or.inr (List.mem_cons_self _ _))

theorem relCnt_keys_nodup (cfg : Config) (rel2id : List (String × Int))
    (instances : List Instance) :
    ((relCnt cfg rel2id instances).map Prod.fst).Nodup := by
  rw [relCnt_eq]
  exact foldl_bump_keys_nodup _ [] (by simp)

theorem relCnt_lookup_eq (cfg : Config) (rel2id : List (String × Int))
    (instances : List Instance) (r : String) :
    (relCnt cfg rel2id instances).lookup r
      = (if r ∈ (instances.filter
            (fun i => ((processInstance cfg rel2id i).2).isSome)).map (fun i => i.relation)
          then some (((instances.filter
            (fun i => ((processInstance cfg rel2id i).2).isSome)).map
              (fun i => i.relation)).count r)
          else none) := by
  rw [relCnt_eq, foldl_bump_lookup]
  simp

theorem relCnt_ids_nodup (cfg : Config) (rel2id : List (String × Int))
    (instances : List Instance)
    (hinj : ∀ p ∈ rel2id, ∀ q ∈ rel2id, p.2 = q.2 → p.1 = q.1) :
    ((relCnt cfg rel2id instances).filterMap (fun p => rel2id.lookup p.1)).Nodup := by
  have hconv : (relCnt cfg rel2id instances).filterMap (fun p => rel2id.lookup p.1)
      = ((relCnt cfg rel2id instances).map Prod.fst).filterMap
          (fun k => rel2id.lookup k) := by
    rw [List.filterMap_map]
    rfl
  rw [hconv]
  apply List.Nodup.filterMap
  · intro a b c hca hcb
    simp only [Option.mem_def] at hca hcb
    have hma := mem_of_lookup_eq_some hca
    have hmb := mem_of_lookup_eq_some hcb
    exact hinj (a, c) hma (b, c) hmb rfl
  · exact relCnt_keys_nodup cfg rel2id instances

theorem relCnt_find?_count (cfg : Config) (rel2id : List (String × Int))
    (instances : List Instance)
    (hinj : ∀ p ∈ rel2id, ∀ q ∈ rel2id, p.2 = q.2 → p.1 = q.1) (rid : Int) :
    (match (relCnt cfg rel2id instances).find?
        (fun p => rel2id.lookup p.1 == some rid) with
      | some p => p.2
      | none => 0)
    = ((instances.filter (fun i => ((processInstance cfg rel2id i).2).isSome)).map
        (fun i => i.relation)).countP (fun r => rel2id.lookup r == some rid) := by
  cases hfind : (relCnt cfg rel2id instances).find?
      (fun p => rel2id.lookup p.1 == some rid) with
  | none =>
      show (0 : Nat) = _
      symm
      rw [List.countP_eq_zero]
      intro r hr hpr
      have hlook : rel2id.lookup r = some rid := by simpa using hpr
      have hcnt := relCnt_lookup_eq cfg rel2id instances r
      rw [if_pos hr] at hcnt
      have hmem := mem_of_lookup_eq_some hcnt
      have := List.find?_eq_none.1 hfind _ hmem
      simp [hlook] at this
  | some p =>
      have hmem := List.mem_of_find?_eq_some hfind
      have hpred := List.find?_some hfind
      have hlook : rel2id.lookup p.1 = some rid := by simpa using hpred
      have hcnt := lookup_of_mem_of_nodup (relCnt_keys_nodup cfg rel2id instances) hmem
      rw [relCnt_lookup_eq cfg rel2id instances p.1] at hcnt
      by_cases hin : p.1 ∈ (instances.filter
          (fun i => ((processInstance cfg rel2id i).2).isSome)).map (fun i => i.relation)
      · rw [if_pos hin] at hcnt
        have hp2 : p.2 = ((instances.filter
            (fun i => ((processInstance cfg rel2id i).2).isSome)).map
              (fun i => i.relation)).count p.1 := by
          exact (Option.some_inj.1 hcnt).symm
        show p.2 = _
        rw [hp2]
        symm
        rw [List.count_eq_countP]
        apply List.countP_congr
        intro x hx
        constructor
        · intro hlx
          have hlx2 : rel2id.lookup x = some rid := by simpa using hlx
          have hmx := mem_of_lookup_eq_some hlx2
          have hmp := mem_of_lookup_eq_some hlook
          have := hinj (x, rid) hmx (p.1, rid) hmp rfl
          simpa using this
        · intro hxp
          have : x = p.1 := by simpa using hxp
          rw [this]
          simp [hlook]
      · rw [if_neg hin] at hcnt
        exact Option.noConfusion hcnt

theorem list_range_map_sum {M : Type} [AddCommMonoid M] (f : Nat → M) :
    ∀ (K : Nat), ((List.range K).map f).sum = ∑ i in Finset.range K, f i
  | 0 => by simp
  | K + 1 => by
      rw [List.range_succ, List.map_append, List.sum_append, Finset.sum_range_succ,
        list_range_map_sum f K]
      simp

theorem sum_counts (rel2id : List (String × Int))
    (hrange : ∀ p ∈ rel2id, 0 ≤ p.2 ∧ p.2 < (rel2id.length : Int)) :
    ∀ (strs : List String), (∀ r ∈ strs, (rel2id.lookup r).isSome) →
      (∑ i in Finset.range rel2id.length,
        ((strs.countP (fun r => rel2id.lookup r == some ((i : Nat) : Int)) : ℚ)))
        = (strs.length : ℚ)
  | [], _ => by simp
  | s :: t, hres => by
      have hres_t : ∀ r ∈ t, (rel2id.lookup r).isSome :=
        fun r hr => hres r (List.mem_cons_of_mem s hr)
      obtain ⟨rid, hrid⟩ := Option.isSome_iff_exists.1 (hres s (List.mem_cons_self s t))
      have hmem := mem_of_lookup_eq_some hrid
      have h0 : 0 ≤ rid := (hrange (s, rid) hmem).1
      have hK : rid < (rel2id.length : Int) := (hrange (s, rid) hmem).2
      have hsplit : ∀ i : Nat,
          ((((s :: t).countP (fun r => rel2id.lookup r == some ((i : Nat) : Int))) : ℚ))
            = ((t.countP (fun r => rel2id.lookup r == some ((i : Nat) : Int)) : ℚ))
              + (if i = rid.toNat then (1 : ℚ) else 0) := by
        intro i
        by_cases hc : (i : Int) = rid
        · have hcc : (s :: t).countP (fun r => rel2id.lookup r == some ((i : Nat) : Int))
              = t.countP (fun r => rel2id.lookup r == some ((i : Nat) : Int)) + 1 := by
            rw [List.countP_cons, if_pos (by simp [hrid, hc])]
          rw [hcc, if_pos (by omega)]
          push_cast
          ring
        · have hcc : (s :: t).countP (fun r => rel2id.lookup r == some ((i : Nat) : Int))
              = t.countP (fun r => rel2id.lookup r == some ((i : Nat) : Int)) := by
            rw [List.countP_cons, if_neg (by simp [hrid]; omega)]
            omega
          rw [hcc, if_neg (by omega)]
          push_cast
          ring
      rw [Finset.sum_congr rfl (fun i _ => hsplit i), Finset.sum_add_distrib,
        sum_counts rel2id hrange t hres_t, Finset.sum_ite_eq' (Finset.range rel2id.length)
          rid.toNat (fun _ => (1 : ℚ))]
      rw [if_pos (Finset.mem_range.2 (by omega))]
      push_cast [List.length_cons]
      ring

theorem npMax_mem {l : List ℝ} (h : l ≠ []) : npMax l ∈ l := by
  rw [npMax]
  rcases foldl_max_mem (l := l) (a := l.headD 0) with h1 | h1
  · rw [h1]
    cases l with
    | nil => exact absurd rfl h
    | cons x t => simp
  · exact h1

theorem le_npMax {l : List ℝ} : ∀ x ∈ l, x ≤ npMax l :=
  fun x hx => foldl_max_le _ _ x hx

theorem rel_distrib_raw_eval (cfg : Config) (rel2id : List (String × Int))
    (instances : List Instance)
    (hinj : ∀ p ∈ rel2id, ∀ q ∈ rel2id, p.2 = q.2 → p.1 = q.1) (rid : Int) :
    writeArr rel2id (fun _ => (0 : ℚ)) (fun n => (n : ℚ)) (relCnt cfg rel2id instances) rid
      = (((instances.filter (fun i => ((processInstance cfg rel2id i).2).isSome)).map
          (fun i => i.relation)).countP (fun r => rel2id.lookup r == some rid) : ℚ) := by
  rw [writeArr_eval rel2id _ _ _ rid (relCnt_ids_nodup cfg rel2id instances hinj)]
  have hfc := relCnt_find?_count cfg rel2id instances hinj rid
  cases hfind : (relCnt cfg rel2id instances).find?
      (fun p => rel2id.lookup p.1 == some rid) with
  | none =>
      rw [hfind] at hfc
      have hfc2 : (0 : Nat) = ((instances.filter
          (fun i => ((processInstance cfg rel2id i).2).isSome)).map
            (fun i => i.relation)).countP (fun r => rel2id.lookup r == some rid) := hfc
      show (0 : ℚ) = _
      exact_mod_cast hfc2
  | some p =>
      rw [hfind] at hfc
      have hfc2 : p.2 = ((instances.filter
          (fun i => ((processInstance cfg rel2id i).2).isSome)).map
            (fun i => i.relation)).countP (fun r => rel2id.lookup r == some rid) := hfc
      show ((p.2 : ℚ)) = _
      exact_mod_cast hfc2

theorem log_prior_raw_eval (cfg : Config) (rel2id : List (String × Int))
    (instances : List Instance)
    (hinj : ∀ p ∈ rel2id, ∀ q ∈ rel2id, p.2 = q.2 → p.1 = q.1) (rid : Int) :
    writeArr rel2id (fun _ => (0 : ℝ)) (fun n => Real.log (n : ℝ))
        (relCnt cfg rel2id instances) rid
      = Real.log ((((instances.filter
          (fun i => ((processInstance cfg rel2id i).2).isSome)).map
            (fun i => i.relation)).countP (fun r => rel2id.lookup r == some rid) : ℝ)) := by
  rw [writeArr_eval rel2id _ _ _ rid (relCnt_ids_nodup cfg rel2id instances hinj)]
  have hfc := relCnt_find?_count cfg rel2id instances hinj rid
  cases hfind : (relCnt cfg rel2id instances).find?
      (fun p => rel2id.lookup p.1 == some rid) with
  | none =>
      rw [hfind] at hfc
      have hfc2 : (0 : Nat) = ((instances.filter
          (fun i => ((processInstance cfg rel2id i).2).isSome)).map
            (fun i => i.relation)).countP (fun r => rel2id.lookup r == some rid) := hfc
      show (0 : ℝ) = _
      rw [← hfc2]
      simp
  | some p =>
      rw [hfind] at hfc
      have hfc2 : p.2 = ((instances.filter
          (fun i => ((processInstance cfg rel2id i).2).isSome)).map
            (fun i => i.relation)).countP (fun r => rel2id.lookup r == some rid) := hfc
      show Real.log ((p.2 : ℝ)) = _
      rw [hfc2]

theorem kept_lookup_isSome (cfg : Config) (rel2id : List (String × Int))
    (instances : List Instance) :
    ∀ r ∈ (instances.filter
        (fun i => ((processInstance cfg rel2id i).2).isSome)).map (fun i => i.relation),
      (rel2id.lookup r).isSome := by
  intro r hr
  obtain ⟨i, hi, rfl⟩ := List.mem_map.1 hr
  have hsome := (List.mem_filter.1 hi).2
  rw [Option.isSome_iff_ne_none] at hsome ⊢
  intro hnone
  exact hsome ((processInstance_none_iff cfg rel2id i).2 (Or.inr (Or.inr hnone)))

/-- C9: with at least one retained instance and a well-formed relation
vocabulary (injective ids filling 0..K-1), rel_distrib is the empirical
relation-count distribution normalized to sum to one — entry rid is the number
of retained instances whose relation has id rid divided by the number retained,
and the K entries sum to 1 — and log_prior is the per-relation log count
shifted by the array maximum, so its maximum entry is exactly 0 (a relation
with no instances keeps the zero-initialized entry, which Real.log also assigns
to a zero count). -/
theorem dataset_statistics_correct (cfg : Config) (rel2id : List (String × Int))
    (instances : List Instance)
    (hinj : ∀ p ∈ rel2id, ∀ q ∈ rel2id, p.2 = q.2 → p.1 = q.1)
    (hrange : ∀ p ∈ rel2id, 0 ≤ p.2 ∧ p.2 < (rel2id.length : Int))
    (hne : instances.filter (fun i => ((processInstance cfg rel2id i).2).isSome) ≠ []) :
    (∀ rid : Int,
      rel_distrib rel2id (relCnt cfg rel2id instances) rid
        = (((instances.filter (fun i => ((processInstance cfg rel2id i).2).isSome)).countP
            (fun i => rel2id.lookup i.relation == some rid) : ℚ))
          / ((instances.filter
              (fun i => ((processInstance cfg rel2id i).2).isSome)).length : ℚ))
    ∧ ((List.range rel2id.length).map
        (fun i => rel_distrib rel2id (relCnt cfg rel2id instances) ((i : Nat) : Int))).sum
        = 1
    ∧ (∀ rid : Int,
      log_prior rel2id (relCnt cfg rel2id instances) rid
        = Real.log ((((instances.filter
              (fun i => ((processInstance cfg rel2id i).2).isSome)).countP
                (fun i => rel2id.lookup i.relation == some rid) : ℝ)))
          - npMax ((List.range rel2id.length).map (fun k =>
              Real.log ((((instances.filter
                (fun i => ((processInstance cfg rel2id i).2).isSome)).countP
                  (fun i => rel2id.lookup i.relation == some ((k : Nat) : Int)) : ℝ))))))
    ∧ (∃ rid : Int, 0 ≤ rid ∧ rid < (rel2id.length : Int)
        ∧ log_prior rel2id (relCnt cfg rel2id instances) rid = 0)
    ∧ (∀ rid : Int, 0 ≤ rid → rid < (rel2id.length : Int)
        → log_prior rel2id (relCnt cfg rel2id instances) rid ≤ 0) := by
  have hres := kept_lookup_isSome cfg rel2id instances
  have hbridge : ∀ rid : Int,
      ((instances.filter (fun i => ((processInstance cfg rel2id i).2).isSome)).map
        (fun i => i.relation)).countP (fun r => rel2id.lookup r == some rid)
      = (instances.filter (fun i => ((processInstance cfg rel2id i).2).isSome)).countP
          (fun i => rel2id.lookup i.relation == some rid) := by
    intro rid
    rw [List.countP_map]
    rfl
  have hlen : ((instances.filter (fun i => ((processInstance cfg rel2id i).2).isSome)).map
      (fun i => i.relation)).length
      = (instances.filter (fun i => ((processInstance cfg rel2id i).2).isSome)).length :=
    List.length_map _ _
  have htot : ((List.range rel2id.length).map
      (fun i => writeArr rel2id (fun _ => (0 : ℚ)) (fun n => (n : ℚ))
        (relCnt cfg rel2id instances) ((i : Nat) : Int))).sum
      = ((instances.filter (fun i => ((processInstance cfg rel2id i).2).isSome)).length : ℚ) := by
    rw [list_range_map_sum]
    rw [Finset.sum_congr rfl
      (fun i _ => rel_distrib_raw_eval cfg rel2id instances hinj ((i : Nat) : Int))]
    rw [sum_counts rel2id hrange _ hres]
    rw [hlen]
  have hlenpos : 0 < (instances.filter
      (fun i => ((processInstance cfg rel2id i).2).isSome)).length :=
    List.length_pos.2 hne
  have hconj1 : ∀ rid : Int,
      rel_distrib rel2id (relCnt cfg rel2id instances) rid
        = (((instances.filter (fun i => ((processInstance cfg rel2id i).2).isSome)).countP
            (fun i => rel2id.lookup i.relation == some rid) : ℚ))
          / ((instances.filter
              (fun i => ((processInstance cfg rel2id i).2).isSome)).length : ℚ) := by
    intro rid
    show writeArr rel2id (fun _ => (0 : ℚ)) (fun n => (n : ℚ))
        (relCnt cfg rel2id instances) rid
      / ((List.range rel2id.length).map
          (fun i => writeArr rel2id (fun _ => (0 : ℚ)) (fun n => (n : ℚ))
            (relCnt cfg rel2id instances) ((i : Nat) : Int))).sum = _
    rw [rel_distrib_raw_eval cfg rel2id instances hinj rid, htot, hbridge rid]
  have hlograw : ∀ rid : Int,
      writeArr rel2id (fun _ => (0 : ℝ)) (fun n => Real.log (n : ℝ))
        (relCnt cfg rel2id instances) rid
      = Real.log ((((instances.filter
            (fun i => ((processInstance cfg rel2id i).2).isSome)).countP
              (fun i => rel2id.lookup i.relation == some rid) : ℝ))) := by
    intro rid
    rw [log_prior_raw_eval cfg rel2id instances hinj rid]
    rw [show (((instances.filter (fun i => ((processInstance cfg rel2id i).2).isSome)).map
        (fun i => i.relation)).countP (fun r => rel2id.lookup r == some rid) : ℝ)
      = (((instances.filter (fun i => ((processInstance cfg rel2id i).2).isSome)).countP
          (fun i => rel2id.lookup i.relation == some rid) : ℝ)) by
        exact_mod_cast hbridge rid]
  have hmaxlist : ((List.range rel2id.length).map
      (fun i => writeArr rel2id (fun _ => (0 : ℝ)) (fun n => Real.log (n : ℝ))
        (relCnt cfg rel2id instances) ((i : Nat) : Int)))
      = ((List.range rel2id.length).map (fun k =>
          Real.log ((((instances.filter
            (fun i => ((processInstance cfg rel2id i).2).isSome)).countP
              (fun i => rel2id.lookup i.relation == some ((k : Nat) : Int)) : ℝ))))) :=
    List.map_congr_left (fun k _ => hlograw ((k : Nat) : Int))
  have hconj3 : ∀ rid : Int,
      log_prior rel2id (relCnt cfg rel2id instances) rid
        = Real.log ((((instances.filter
              (fun i => ((processInstance cfg rel2id i).2).isSome)).countP
                (fun i => rel2id.lookup i.relation == some rid) : ℝ)))
          - npMax ((List.range rel2id.length).map (fun k =>
              Real.log ((((instances.filter
                (fun i => ((processInstance cfg rel2id i).2).isSome)).countP
                  (fun i => rel2id.lookup i.relation == some ((k : Nat) : Int)) : ℝ))))):= by
    intro rid
    show writeArr rel2id (fun _ => (0 : ℝ)) (fun n => Real.log (n : ℝ))
        (relCnt cfg rel2id instances) rid
      - npMax ((List.range rel2id.length).map
          (fun i => writeArr rel2id (fun _ => (0 : ℝ)) (fun n => Real.log (n : ℝ))
            (relCnt cfg rel2id instances) ((i : Nat) : Int))) = _
    rw [hlograw rid, hmaxlist]
  have hKpos : 0 < rel2id.length := by
    obtain ⟨i0, hi0⟩ := List.exists_mem_of_ne_nil _ hne
    have := hres i0.relation (List.mem_map_of_mem _ hi0)
    obtain ⟨rid0, hr0⟩ := Option.isSome_iff_exists.1 this
    have hm := mem_of_lookup_eq_some hr0
    have := List.length_pos.2 (List.ne_nil_of_mem hm)
    omega
  refine ⟨hconj1, ?_, hconj3, ?_, ?_⟩
  · rw [List.map_congr_left (fun i _ => hconj1 ((i : Nat) : Int)), list_range_map_sum,
      ← Finset.sum_div]
    have hq : ∀ i : Nat,
        (((instances.filter (fun i2 => ((processInstance cfg rel2id i2).2).isSome)).countP
          (fun i2 => rel2id.lookup i2.relation == some ((i : Nat) : Int)) : ℚ))
        = ((((instances.filter (fun i2 => ((processInstance cfg rel2id i2).2).isSome)).map
            (fun i2 => i2.relation)).countP
              (fun r => rel2id.lookup r == some ((i : Nat) : Int)) : ℚ)) := by
      intro i
      exact_mod_cast (hbridge ((i : Nat) : Int)).symm
    rw [Finset.sum_congr rfl (fun i _ => hq i), sum_counts rel2id hrange _ hres, hlen]
    apply div_self
    exact_mod_cast Nat.pos_iff_ne_zero.1 hlenpos
  · have hLne : ((List.range rel2id.length).map
        (fun i => writeArr rel2id (fun _ => (0 : ℝ)) (fun n => Real.log (n : ℝ))
          (relCnt cfg rel2id instances) ((i : Nat) : Int))) ≠ [] := by
      simp only [ne_eq, List.map_eq_nil_iff, List.range_eq_nil]
      omega
    have hmax := npMax_mem hLne
    obtain ⟨k, hk, heq⟩ := List.mem_map.1 hmax
    refine ⟨((k : Nat) : Int), Int.ofNat_nonneg k, by exact_mod_cast List.mem_range.1 hk, ?_⟩
    show writeArr rel2id (fun _ => (0 : ℝ)) (fun n => Real.log (n : ℝ))
        (relCnt cfg rel2id instances) ((k : Nat) : Int)
      - npMax ((List.range rel2id.length).map
          (fun i => writeArr rel2id (fun _ => (0 : ℝ)) (fun n => Real.log (n : ℝ))
            (relCnt cfg rel2id instances) ((i : Nat) : Int))) = 0
    rw [heq]
    ring
  · intro rid h0 hK2
    show writeArr rel2id (fun _ => (0 : ℝ)) (fun n => Real.log (n : ℝ))
        (relCnt cfg rel2id instances) rid
      - npMax ((List.range rel2id.length).map
          (fun i => writeArr rel2id (fun _ => (0 : ℝ)) (fun n => Real.log (n : ℝ))
            (relCnt cfg rel2id instances) ((i : Nat) : Int))) ≤ 0
    have hmem : writeArr rel2id (fun _ => (0 : ℝ)) (fun n => Real.log (n : ℝ))
        (relCnt cfg rel2id instances) rid
        ∈ ((List.range rel2id.length).map
          (fun i => writeArr rel2id (fun _ => (0 : ℝ)) (fun n => Real.log (n : ℝ))
            (relCnt cfg rel2id instances) ((i : Nat) : Int))) := by
      have hcast : rid = ((rid.toNat : Nat) : Int) := (Int.toNat_of_nonneg h0).symm
      rw [hcast]
      exact List.mem_map_of_mem _ (List.mem_range.2 (by omega))
    have hle := le_npMax _ hmem
    linarith

/-- Witness for C9 at a one-instance dataset with vocabulary
[no_relation ↦ 0, A ↦ 1]. -/
theorem dataset_statistics_correct_witness :
    (∀ p ∈ ([("no_relation", 0), ("A", 1)] : List (String × Int)), ∀ q ∈ ([("no_relation", 0), ("A", 1)] : List (String × Int)), p.2 = q.2 → p.1 = q.1)
    ∧ (∀ p ∈ ([("no_relation", 0), ("A", 1)] : List (String × Int)), 0 ≤ p.2 ∧ p.2 < (([("no_relation", 0), ("A", 1)] : List (String × Int)).length : Int))
    ∧ [(⟨["a"], ["NN"], ["O"], 0, 0, 0, 0, "", "", "A"⟩ : Instance)].filter (fun i => ((processInstance (⟨false, false, false, fun _ => none⟩ : Config) ([("no_relation", 0), ("A", 1)] : List (String × Int)) i).2).isSome) ≠ []
    ∧ ((∀ rid : Int,
      rel_distrib ([("no_relation", 0), ("A", 1)] : List (String × Int)) (relCnt (⟨false, false, false, fun _ => none⟩ : Config) ([("no_relation", 0), ("A", 1)] : List (String × Int)) [(⟨["a"], ["NN"], ["O"], 0, 0, 0, 0, "", "", "A"⟩ : Instance)]) rid
        = ((([(⟨["a"], ["NN"], ["O"], 0, 0, 0, 0, "", "", "A"⟩ : Instance)].filter (fun i => ((processInstance (⟨false, false, false, fun _ => none⟩ : Config) ([("no_relation", 0), ("A", 1)] : List (String × Int)) i).2).isSome)).countP
            (fun i => ([("no_relation", 0), ("A", 1)] : List (String × Int)).lookup i.relation == some rid) : ℚ))
          / (([(⟨["a"], ["NN"], ["O"], 0, 0, 0, 0, "", "", "A"⟩ : Instance)].filter
              (fun i => ((processInstance (⟨false, false, false, fun _ => none⟩ : Config) ([("no_relation", 0), ("A", 1)] : List (String × Int)) i).2).isSome)).length : ℚ))
    ∧ ((List.range ([("no_relation", 0), ("A", 1)] : List (String × Int)).length).map
        (fun i => rel_distrib ([("no_relation", 0), ("A", 1)] : List (String × Int)) (relCnt (⟨false, false, false, fun _ => none⟩ : Config) ([("no_relation", 0), ("A", 1)] : List (String × Int)) [(⟨["a"], ["NN"], ["O"], 0, 0, 0, 0, "", "", "A"⟩ : Instance)]) ((i : Nat) : Int))).sum
        = 1
    ∧ (∀ rid : Int,
      log_prior ([("no_relation", 0), ("A", 1)] : List (String × Int)) (relCnt (⟨false, false, false, fun _ => none⟩ : Config) ([("no_relation", 0), ("A", 1)] : List (String × Int)) [(⟨["a"], ["NN"], ["O"], 0, 0, 0, 0, "", "", "A"⟩ : Instance)]) rid
        = Real.log (((([(⟨["a"], ["NN"], ["O"], 0, 0, 0, 0, "", "", "A"⟩ : Instance)].filter
              (fun i => ((processInstance (⟨false, false, false, fun _ => none⟩ : Config) ([("no_relation", 0), ("A", 1)] : List (String × Int)) i).2).isSome)).countP
                (fun i => ([("no_relation", 0), ("A", 1)] : List (String × Int)).lookup i.relation == some rid) : ℝ)))
          - npMax ((List.range ([("no_relation", 0), ("A", 1)] : List (String × Int)).length).map (fun k =>
              Real.log (((([(⟨["a"], ["NN"], ["O"], 0, 0, 0, 0, "", "", "A"⟩ : Instance)].filter
                (fun i => ((processInstance (⟨false, false, false, fun _ => none⟩ : Config) ([("no_relation", 0), ("A", 1)] : List (String × Int)) i).2).isSome)).countP
                  (fun i => ([("no_relation", 0), ("A", 1)] : List (String × Int)).lookup i.relation == some ((k : Nat) : Int)) : ℝ))))))
    ∧ (∃ rid : Int, 0 ≤ rid ∧ rid < (([("no_relation", 0), ("A", 1)] : List (String × Int)).length : Int)
        ∧ log_prior ([("no_relation", 0), ("A", 1)] : List (String × Int)) (relCnt (⟨false, false, false, fun _ => none⟩ : Config) ([("no_relation", 0), ("A", 1)] : List (String × Int)) [(⟨["a"], ["NN"], ["O"], 0, 0, 0, 0, "", "", "A"⟩ : Instance)]) rid = 0)
    ∧ (∀ rid : Int, 0 ≤ rid → rid < (([("no_relation", 0), ("A", 1)] : List (String × Int)).length : Int)
        → log_prior ([("no_relation", 0), ("A", 1)] : List (String × Int)) (relCnt (⟨false, false, false, fun _ => none⟩ : Config) ([("no_relation", 0), ("A", 1)] : List (String × Int)) [(⟨["a"], ["NN"], ["O"], 0, 0, 0, 0, "", "", "A"⟩ : Instance)]) rid ≤ 0)) :=
  ⟨by decide, by decide, by decide,
    dataset_statistics_correct (⟨false, false, false, fun _ => none⟩ : Config) ([("no_relation", 0), ("A", 1)] : List (String × Int)) [(⟨["a"], ["NN"], ["O"], 0, 0, 0, 0, "", "", "A"⟩ : Instance)] (by decide) (by decide) (by decide)⟩

end RelExt
